import Mathlib

/-!
# TrendSensei — catalog storage and aggregation layer, shallow embedding

This file embeds the core of the TrendSensei repository (an e-commerce
analytics dashboard): the in-memory catalog store with its CSV ingestion
pipeline, query surface, and aggregation views.

The repository carries two revisions of the storage module:

* `part_000` (`server/storage.ts`, current): products keyed by `product_id`,
  fields `title`/`event_impact`/`estimated_demand`/…, a `DrizzleStorage`
  (SQL) and a `MemStorage` backend.  We embed the `MemStorage` backend,
  which is the executable reference implementation.
* `part_001` (older revision): products shaped `name`/`brand`/`salesVolume`/
  `profitMargin`/`trending`, matching the `shared/schema.ts` present in the
  sources; its aggregation views mock growth numbers with `Math.random`.

JavaScript builtins (`parseFloat`, `parseInt`, `String(...)`, `Map`,
`Array.prototype.slice/sort/filter`, `Math.random`) are modelled by explicit
Lean functions below; `Math.random` is modelled as a stream `ℕ → ℚ` of
successive draws threaded through the functions that call it.  JavaScript
`NaN` is modelled as `none` in `Option ℚ`: every ordered comparison against
`none` is `false`, and `none` propagates through arithmetic, exactly as `NaN`
does in the expressions this code evaluates.
-/

namespace TrendSensei

/-! ## Models of the JavaScript builtins -/

/-- Model of JavaScript `String.prototype.toLowerCase` (the sources only
lower-case ASCII data): lower-case each character. -/
def jsToLower (s : String) : String := ⟨s.data.map Char.toLower⟩

/-- Model of JavaScript `String.prototype.includes`: `sub` occurs as a
contiguous substring of `s` (the empty string is a substring of anything). -/
def jsIncludes (s sub : String) : Bool :=
  (s.toList.tails).any (fun t => sub.toList.isPrefixOf t)

/-- Characters skipped by `parseFloat`/`parseInt` before the number. -/
def jsIsSpace (c : Char) : Bool :=
  c = ' ' ∨ c = '\t' ∨ c = '\n' ∨ c = '\r'

/-- Numeric value of a block of decimal digits. -/
def digitsVal (cs : List Char) : Nat :=
  cs.foldl (fun n c => 10 * n + (c.toNat - '0'.toNat)) 0

/-- Magnitude part of `parseFloat`: longest prefix `digits [. digits]` or
`. digits`; `none` when no digit is found (JavaScript `NaN`).  The value
`ints + frac / 10 ^ |frac|` is built as a single fraction with `mkRat`. -/
def jsParseFloatMag (cs : List Char) : Option ℚ :=
  let ints := cs.takeWhile Char.isDigit
  let rest := cs.drop ints.length
  let frac :=
    match rest with
    | '.' :: r => r.takeWhile Char.isDigit
    | _ => []
  if ints.isEmpty ∧ frac.isEmpty then none
  else some (mkRat (digitsVal ints * 10 ^ frac.length + digitsVal frac) (10 ^ frac.length))

/-- Model of JavaScript `parseFloat`: skip leading whitespace, optional sign,
then the longest decimal-literal prefix; `none` models `NaN`.  (The exponent
and `Infinity` forms of the grammar are not exercised by this repository's
data and are not modelled.) -/
def jsParseFloat (s : String) : Option ℚ :=
  let cs := s.toList.dropWhile jsIsSpace
  match cs with
  | '-' :: rest => (jsParseFloatMag rest).map (fun q => -q)
  | '+' :: rest => jsParseFloatMag rest
  | _ => jsParseFloatMag cs

/-- Model of JavaScript `parseInt(x, 10)` applied to a possibly-`undefined`
CSV field (`none` argument models `undefined`, whose coercion `"undefined"`
has no digit prefix): skip whitespace, optional sign, longest digit prefix;
`none` result models `NaN`. -/
def jsParseIntOpt (o : Option String) : Option Int :=
  match o with
  | none => none
  | some s =>
    let cs := s.toList.dropWhile jsIsSpace
    let signed : Bool × List Char :=
      match cs with
      | '-' :: rest => (true, rest)
      | '+' :: rest => (false, rest)
      | _ => (false, cs)
    let ds := signed.2.takeWhile Char.isDigit
    if ds.isEmpty then none
    else some (if signed.1 then -(digitsVal ds : Int) else (digitsVal ds : Int))

/-- Model of JavaScript `String(x)` on a possibly-`undefined` field:
`String(undefined)` is the literal string `"undefined"`. -/
def jsStringOf (o : Option String) : String :=
  match o with
  | none => "undefined"
  | some s => s

/-- JavaScript truthiness of a possibly-`undefined` string: `undefined` and
`""` are falsy, every other string (including `"0"` and `"NULL"`) is truthy. -/
def jsTruthyStr (o : Option String) : Bool :=
  match o with
  | none => false
  | some s => ¬ s.isEmpty

/-- Model of `new Date(x)` validity for the date strings this repository
feeds it (ISO calendar dates `YYYY-MM-DD`); `none`/other shapes give an
`Invalid Date`, which the validator rejects.  The embedding keeps the raw
string as the date value: the sources only ever compare dates coming from
identical strings. -/
def jsDateOk (o : Option String) : Bool :=
  match o with
  | none => false
  | some s =>
    match s.toList with
    | [y1, y2, y3, y4, '-', m1, m2, '-', d1, d2] =>
      y1.isDigit ∧ y2.isDigit ∧ y3.isDigit ∧ y4.isDigit ∧
      m1.isDigit ∧ m2.isDigit ∧ d1.isDigit ∧ d2.isDigit
    | _ => false

/-- Model of `Array.prototype.slice(s, e)`: negative indices count from the
end, the result is the clamped half-open window `[s, e)`. -/
def jsSlice {α : Type} (l : List α) (s e : Int) : List α :=
  let n : Int := l.length
  let lo := (max (if s < 0 then n + s else s) 0).toNat
  let hi := (max (if e < 0 then n + e else e) 0).toNat
  (l.take hi).drop lo

/-- Model of `Array.from(new Set(xs))`: deduplicate keeping the first
occurrence of each element, in insertion order. -/
def jsSetDedup (l : List String) : List String :=
  l.foldl (fun acc x => if x ∈ acc then acc else acc ++ [x]) []

/-- Insert `x` in front of the first element `y` with `before x y`;
used to model the (stable) `Array.prototype.sort`. -/
def insertBy {α : Type} (before : α → α → Bool) (x : α) : List α → List α
  | [] => [x]
  | y :: ys => if before x y then x :: y :: ys else y :: insertBy before x ys

/-- Stable sort model for `Array.prototype.sort(cmp)`: elements are taken
left to right and each is inserted in front of the first element it strictly
precedes, so ties keep their original order. -/
def jsSortBy {α : Type} (before : α → α → Bool) (l : List α) : List α :=
  l.foldl (fun acc x => insertBy before x acc) []

/-- `a` strictly greater than `b` under the `NaN` model: any comparison
involving `NaN` (`none`) is `false`, so a comparator returning `NaN` reports
"no strict order", as in the source's numeric comparators. -/
def optGT (a b : Option ℚ) : Bool :=
  match a, b with
  | some a, some b => b < a
  | _, _ => false

/-- JavaScript `+` on numbers with `NaN` (`none`) propagation. -/
def jsAdd (a b : Option ℚ) : Option ℚ :=
  match a, b with
  | some a, some b => some (a + b)
  | _, _ => none

/-- JavaScript `*` on numbers with `NaN` (`none`) propagation. -/
def jsMul (a b : Option ℚ) : Option ℚ :=
  match a, b with
  | some a, some b => some (a * b)
  | _, _ => none

/-- `reduce((sum, x) => sum + x, 0)` over JavaScript numbers. -/
def jsSum (l : List (Option ℚ)) : Option ℚ :=
  l.foldl jsAdd (some 0)

/-- JavaScript division by a (true, non-`NaN`) number `n`.  In the sources
the divisor is always a list length and the dividend the `jsSum` of that
list, so `n = 0` forces a dividend of `0` and `0 / 0 = NaN` (`none`); the
infinite quotients of a nonzero dividend by zero never arise. -/
def jsDiv (a : Option ℚ) (n : ℚ) : Option ℚ :=
  match a with
  | none => none
  | some a => if n = 0 then none else some (a / n)

/-! ## part_000 (`server/storage.ts`, current revision): data model -/

/-- One data row produced by `csv-parser`: header-named string fields, a
missing column giving `undefined` (`none`). -/
structure CsvRow where
  product_id : Option String
  date : Option String
  title : Option String
  category : Option String
  price : Option String
  rating : Option String
  reviews : Option String
  availability : Option String
  competitor_price : Option String
  promotion_flag : Option String
  estimated_demand : Option String
  cost_price : Option String
  profit_margin : Option String
  event : Option String
  event_impact : Option String
  ad_spend : Option String
  market_share : Option String
  deriving Repr, DecidableEq

/-- The current-revision product record (the fields of `insertProductSchema`:
drizzle `decimal` columns are carried as strings, nullable columns as
`Option`).  `MemStorage.createProduct` stores exactly this spread. -/
structure Product0 where
  product_id : String
  date : String
  title : String
  category : String
  price : String
  rating : String
  reviews : Int
  availability : Bool
  competitor_price : Option String
  promotion_flag : Bool
  estimated_demand : Int
  cost_price : Option String
  profit_margin : String
  event : Option String
  event_impact : Option String
  ad_spend : Option String
  market_share : Option String
  deriving Repr, DecidableEq

/-- `x ? String(x) : null` — the coercion applied to the optional columns
`competitor_price`, `cost_price`, `event_impact`, `ad_spend`, `market_share`:
a falsy value (`undefined` or `""`) becomes `null`, any other string is kept
verbatim. -/
def optionalCoerce (o : Option String) : Option String :=
  match o with
  | none => none
  | some s => if s.isEmpty then none else some s

/-- `row.event && row.event !== 'NULL' ? row.event : null` — the `event`
column additionally maps the literal string `"NULL"` to `null`. -/
def eventCoerce (o : Option String) : Option String :=
  match o with
  | none => none
  | some s => if s.isEmpty ∨ s = "NULL" then none else some s

/-- `row.x?.toLowerCase() === 'true'` — boolean-ish column coercion. -/
def boolCoerce (o : Option String) : Bool :=
  o.map jsToLower = some "true"

/-- The per-row mapping and validation of `importProductsFromCsv`
(part_000 lines 229–235): the field coercions are translated from that call
site.  The surrounding `insertProductSchema.parse` is *Modelled from the
spec*: the `shared/schema.ts` revision that defines the `products` table
keyed by `product_id` is not among the sources (the one present is the older
`name`/`brand` shape), so its drizzle-zod validator is reconstructed from
§4.1 of the spec and the column usage visible in part_000: required string
columns reject `undefined`, integer columns reject `NaN`, the timestamp
column rejects an `Invalid Date`; decimal columns are plain strings (they
pass through `String(...)`, so never `undefined`). -/
def parseRow (r : CsvRow) : Option Product0 :=
  match r.product_id, r.title, r.category,
        jsParseIntOpt r.reviews, jsParseIntOpt r.estimated_demand with
  | some pid, some title, some category, some reviews, some demand =>
    if jsDateOk r.date then
      some {
        product_id := pid
        date := jsStringOf r.date
        title := title
        category := category
        price := jsStringOf r.price
        rating := jsStringOf r.rating
        reviews := reviews
        availability := boolCoerce r.availability
        competitor_price := optionalCoerce r.competitor_price
        promotion_flag := boolCoerce r.promotion_flag
        estimated_demand := demand
        cost_price := optionalCoerce r.cost_price
        profit_margin := jsStringOf r.profit_margin
        event := eventCoerce r.event
        event_impact := optionalCoerce r.event_impact
        ad_spend := optionalCoerce r.ad_spend
        market_share := optionalCoerce r.market_share }
    else none
  | _, _, _, _, _ => none

/-! ## part_000 `MemStorage`: the products `Map` and its operations -/

/-- The `MemStorage.products` JavaScript `Map`: insertion-ordered key/value
pairs with (invariantly) no duplicate keys. -/
abbrev Mem0 : Type := List (String × Product0)

/-- The keys of the map, in insertion order. -/
def mapKeys (m : Mem0) : List String := m.map Prod.fst

/-- `Map.prototype.set`: an existing key is updated in place (its position
is kept), a new key is appended. -/
def mapSet (m : Mem0) (k : String) (v : Product0) : Mem0 :=
  if m.any (fun e => e.1 = k) then
    m.map (fun e => if e.1 = k then (k, v) else e)
  else m ++ [(k, v)]

/-- `Map.prototype.get`. -/
def mapLookup (m : Mem0) (k : String) : Option Product0 :=
  (m.find? (fun e => e.1 = k)).map Prod.snd

/-- The map invariant: keys are pairwise distinct (JavaScript `Map`s cannot
hold a key twice). -/
def NodupKeys (m : Mem0) : Prop := (mapKeys m).Nodup

instance : DecidablePred NodupKeys := fun m =>
  inferInstanceAs (Decidable (mapKeys m).Nodup)

/-- `MemStorage.createProduct`: `this.products.set(product.product_id, product)`. -/
def mem0CreateProduct (m : Mem0) (p : Product0) : Mem0 :=
  mapSet m p.product_id p

/-- `MemStorage.getProductCount`: `this.products.size`. -/
def mem0ProductCount (m : Mem0) : Nat := m.length

/-- `MemStorage.importProductsFromCsv` (part_000 lines 226–241): every row
is validated, the valid ones are accumulated, on stream end each accumulated
product is `createProduct`-ed and the promise resolves with the number of
accumulated rows.  Returns (final store, resolved count). -/
def mem0ImportCsv (m : Mem0) (rows : List CsvRow) : Mem0 × Nat :=
  let ps := rows.filterMap parseRow
  (ps.foldl mem0CreateProduct m, ps.length)

/-- The filter bag handed to `getProducts` (`filters: any` in the sources;
the route layer fills `category`/`minPrice`/`maxPrice`/`minRating`/`location`
from query parameters).  Numeric entries are modelled as `Option ℚ`: `none`
covers both an absent key and a `NaN` from the route's `parseFloat` — both
are falsy, so both leave the corresponding filter unapplied. -/
structure Filters where
  category : Option String := none
  minPrice : Option ℚ := none
  maxPrice : Option ℚ := none
  minRating : Option ℚ := none
  location : Option String := none
  deriving Repr, DecidableEq

/-- `parseFloat(p.f) >= bound` under the `NaN` model. -/
def floatGe (o : Option ℚ) (bound : ℚ) : Bool :=
  match o with
  | some q => bound ≤ q
  | none => false

/-- `parseFloat(p.f) <= bound` under the `NaN` model. -/
def floatLe (o : Option ℚ) (bound : ℚ) : Bool :=
  match o with
  | some q => q ≤ bound
  | none => false

/-- JavaScript truthiness of an optional string filter entry: absent and
`""` are falsy. -/
def truthyS (o : Option String) : Bool :=
  match o with
  | none => false
  | some s => ¬ s.isEmpty

/-- JavaScript truthiness of an optional numeric filter entry: absent, `NaN`
(both `none`) and `0` are falsy. -/
def truthyN (o : Option ℚ) : Bool :=
  match o with
  | none => false
  | some b => b ≠ 0

/-- The `if (filters.x) { products = products.filter(...) }` pattern: apply
the predicate only when the filter entry is truthy. -/
def condFilter {α : Type} (t : Bool) (pred : α → Bool) (l : List α) : List α :=
  if t then l.filter pred else l

/-- `MemStorage.getProducts` of part_000 (lines 193–199): truthy `category`,
`minPrice` and `maxPrice` filters (in that order) followed by
`slice(offset, offset + limit)`.  A `minRating` or `location` entry in the
bag is not read by this revision. -/
def mem0GetProducts (m : Mem0) (limit offset : Int) (f : Filters) : List Product0 :=
  let prods := m.map Prod.snd
  let prods := condFilter (truthyS f.category)
    (fun p => some p.category = f.category) prods
  let prods := condFilter (truthyN f.minPrice)
    (fun p => floatGe (jsParseFloat p.price) (f.minPrice.getD 0)) prods
  let prods := condFilter (truthyN f.maxPrice)
    (fun p => floatLe (jsParseFloat p.price) (f.maxPrice.getD 0)) prods
  jsSlice prods offset (offset + limit)

/-- `MemStorage.searchProducts` of part_000 (lines 249–251):
`p.title.toLowerCase().includes(query)` — only the title is lower-cased,
the query is used verbatim. -/
def mem0SearchProducts (m : Mem0) (query : String) : List Product0 :=
  (m.map Prod.snd).filter (fun p => jsIncludes (jsToLower p.title) query)

/-! ## part_001 (older revision, matching `shared/schema.ts`): data model -/

/-- The older product shape, from `shared/schema.ts`: drizzle `decimal`
columns (`price`, `rating`, `profitMargin`) are carried as strings, `jsonb`
columns (`competitorPrices`, `locationData`) as string-keyed numeric maps,
timestamps as abstract instants (`Nat`). -/
structure Product1 where
  id : String
  name : String
  category : String
  brand : String
  description : Option String
  price : String
  competitorPrices : List (String × ℚ)
  rating : String
  reviewCount : Int
  salesVolume : Int
  profitMargin : String
  stockLevel : Int
  locationData : List (String × ℚ)
  launchDate : Nat
  trending : Bool
  createdAt : Nat
  deriving Repr, DecidableEq

/-- The analytics record of `shared/schema.ts` (`revenue` is a `decimal`,
hence a string). -/
structure Analytics1 where
  id : String
  productId : Option String
  date : Nat
  sales : Int
  revenue : String
  views : Int
  conversions : Int
  location : String
  deriving Repr, DecidableEq

/-- The part_001 `MemStorage` contents relevant to the claims: the `values()`
of its `products` and `analytics` maps in insertion order (those maps are
keyed by freshly generated UUIDs, which no read path inspects). -/
structure Mem1State where
  products : List Product1
  analytics : List Analytics1
  deriving Repr, DecidableEq

/-- `MemStorage.getProducts` of part_001 (lines 83–108): truthy `category`,
`minPrice`, `maxPrice`, `minRating` and `location` filters (in that order)
followed by `slice(offset, offset + limit)`.  (An absent `filters` argument
behaves exactly like an empty bag, so the optional argument is modelled as a
bag of `none`s.) -/
def mem1GetProducts (s : Mem1State) (limit offset : Int) (f : Filters) : List Product1 :=
  let prods := s.products
  let prods := condFilter (truthyS f.category)
    (fun p => some p.category = f.category) prods
  let prods := condFilter (truthyN f.minPrice)
    (fun p => floatGe (jsParseFloat p.price) (f.minPrice.getD 0)) prods
  let prods := condFilter (truthyN f.maxPrice)
    (fun p => floatLe (jsParseFloat p.price) (f.maxPrice.getD 0)) prods
  let prods := condFilter (truthyN f.minRating)
    (fun p => floatGe (jsParseFloat p.rating) (f.minRating.getD 0)) prods
  let prods := condFilter (truthyS f.location)
    (fun p => (p.locationData.map Prod.fst).contains (jsToLower (f.location.getD ""))) prods
  jsSlice prods offset (offset + limit)

/-- `MemStorage.searchProducts` of part_001 (lines 282–289): the query is
lower-cased once and matched against the lower-cased `name`, `category` and
`brand`. -/
def mem1SearchProducts (s : Mem1State) (query : String) : List Product1 :=
  let lowerQuery := jsToLower query
  s.products.filter (fun p =>
    jsIncludes (jsToLower p.name) lowerQuery ||
    jsIncludes (jsToLower p.category) lowerQuery ||
    jsIncludes (jsToLower p.brand) lowerQuery)

/-! ## part_001 aggregation views (with their `Math.random` draws) -/

/-- `ProductWithMetrics`: a product plus the mocked growth numbers. -/
structure PWM1 where
  product : Product1
  salesGrowth : ℚ
  revenueGrowth : ℚ
  competitivePosition : String
  deriving Repr, DecidableEq

/-- `.map(p => ({...p, salesGrowth: f(Math.random()), revenueGrowth:
g(Math.random()), competitivePosition: pos}))`: each product consumes two
successive draws of the stream, in list order starting at index `i`. -/
def attachGrowth (rand : ℕ → ℚ) (f g : ℚ → ℚ) (pos : String) :
    ℕ → List Product1 → List PWM1
  | _, [] => []
  | i, p :: ps =>
    ⟨p, f (rand i), g (rand (i + 1)), pos⟩ :: attachGrowth rand f g pos (i + 2) ps

/-- `MemStorage.getTrendingProducts` of part_001 (lines 140–152): trending
products, sorted descending by `salesVolume`, first `limit`, growth fields
drawn from `Math.random`. -/
def mem1GetTrendingProducts (s : Mem1State) (limit : ℕ) (rand : ℕ → ℚ) : List PWM1 :=
  attachGrowth rand (fun r => r * 50 + 10) (fun r => r * 40 + 5) "leading" 0
    ((jsSortBy (fun a b => b.salesVolume < a.salesVolume)
        (s.products.filter (·.trending))).take limit)

/-- `MemStorage.getTopProfitProducts` of part_001 (lines 154–165): all
products sorted descending by `parseFloat(profitMargin)`, first `limit`. -/
def mem1GetTopProfitProducts (s : Mem1State) (limit : ℕ) (rand : ℕ → ℚ) : List PWM1 :=
  attachGrowth rand (fun r => r * 30 + 5) (fun r => r * 25 + 3) "profitable" 0
    ((jsSortBy (fun a b => optGT (jsParseFloat a.profitMargin) (jsParseFloat b.profitMargin))
        s.products).take limit)

/-- `MemStorage.getUnderperformingProducts` of part_001 (lines 167–178): all
products sorted ascending by `salesVolume`, first `limit`, negated growth. -/
def mem1GetUnderperformingProducts (s : Mem1State) (limit : ℕ) (rand : ℕ → ℚ) : List PWM1 :=
  attachGrowth rand (fun r => -(r * 30 + 5)) (fun r => -(r * 25 + 3)) "needs attention" 0
    ((jsSortBy (fun a b => a.salesVolume < b.salesVolume) s.products).take limit)

/-- One row of the category roll-up. -/
structure CategoryPerf1 where
  category : String
  sales : Int
  revenue : Option ℚ
  profitMargin : Option ℚ
  growth : ℚ
  deriving Repr, DecidableEq

/-- The per-category body of `getCategoryPerformance` (part_001 lines
234–247), with `r` the `Math.random` draw for the mocked growth. -/
def catEntry (prods : List Product1) (c : String) (r : ℚ) : CategoryPerf1 :=
  let categoryProducts := prods.filter (fun p => p.category = c)
  { category := c
    sales := (categoryProducts.map (·.salesVolume)).sum
    revenue := jsSum (categoryProducts.map
      (fun p => jsMul (some (p.salesVolume : ℚ)) (jsParseFloat p.price)))
    profitMargin := jsDiv (jsSum (categoryProducts.map (fun p => jsParseFloat p.profitMargin)))
      categoryProducts.length
    growth := r * 40 + 5 }

/-- `categories.map(...)` with one `Math.random` draw per category, in
order, starting at stream index `i`. -/
def catPerfAux (rand : ℕ → ℚ) (prods : List Product1) :
    ℕ → List String → List CategoryPerf1
  | _, [] => []
  | i, c :: cs => catEntry prods c (rand i) :: catPerfAux rand prods (i + 1) cs

/-- `MemStorage.getCategoryPerformance` of part_001 (lines 230–248): one
roll-up row per distinct category, in first-occurrence order. -/
def mem1GetCategoryPerformance (s : Mem1State) (rand : ℕ → ℚ) : List CategoryPerf1 :=
  catPerfAux rand s.products 0 (jsSetDedup (s.products.map (·.category)))

/-- The dashboard totals record. -/
structure DashboardMetrics1 where
  totalRevenue : Option ℚ
  revenueGrowth : ℚ
  totalProducts : Nat
  productGrowth : ℚ
  avgProfitMargin : Option ℚ
  marginGrowth : ℚ
  avgRating : Option ℚ
  ratingGrowth : ℚ
  deriving Repr, DecidableEq

/-- `MemStorage.getDashboardMetrics` of part_001 (lines 210–228): sums and
means computed by `reduce(...) / products.length` with no emptiness guard
(so an empty store divides `0 / 0`, giving `NaN` = `none`); the growth
deltas are hard-coded constants. -/
def mem1GetDashboardMetrics (s : Mem1State) : DashboardMetrics1 :=
  { totalRevenue := jsSum (s.analytics.map (fun a => jsParseFloat a.revenue))
    revenueGrowth := 123 / 10
    totalProducts := s.products.length
    productGrowth := 87 / 10
    avgProfitMargin := jsDiv (jsSum (s.products.map (fun p => jsParseFloat p.profitMargin)))
      s.products.length
    marginGrowth := 21 / 10
    avgRating := jsDiv (jsSum (s.products.map (fun p => jsParseFloat p.rating)))
      s.products.length
    ratingGrowth := 3 / 10 }

/-! ## Lemmas about the products `Map` -/

/-- `any (·.1 = k)` detects key membership. -/
lemma any_key_iff (m : Mem0) (k : String) :
    m.any (fun e => e.1 = k) = true ↔ k ∈ mapKeys m := by
  rw [List.any_eq_true]
  constructor
  · rintro ⟨e, he, hk⟩
    exact List.mem_map.mpr ⟨e, he, by simpa using hk⟩
  · intro h
    rcases List.mem_map.mp h with ⟨e, he, rfl⟩
    exact ⟨e, he, by simp⟩

/-- `Map.set` keeps the key sequence when the key exists and appends it
otherwise. -/
lemma mapKeys_mapSet (m : Mem0) (k : String) (v : Product0) :
    mapKeys (mapSet m k v) = if k ∈ mapKeys m then mapKeys m else mapKeys m ++ [k] := by
  by_cases h : k ∈ mapKeys m
  · rw [if_pos h]
    unfold mapSet
    rw [if_pos ((any_key_iff m k).mpr h)]
    unfold mapKeys
    rw [List.map_map]
    apply List.map_congr_left
    intro e _
    by_cases he : e.1 = k <;> simp [he]
  · rw [if_neg h]
    unfold mapSet
    rw [if_neg (fun hc => h ((any_key_iff m k).mp hc))]
    unfold mapKeys
    rw [List.map_append]
    rfl

lemma mem_mapKeys_mapSet (m : Mem0) (k : String) (v : Product0) (k' : String) :
    k' ∈ mapKeys (mapSet m k v) ↔ k' ∈ mapKeys m ∨ k' = k := by
  rw [mapKeys_mapSet]
  by_cases h : k ∈ mapKeys m
  · rw [if_pos h]
    constructor
    · exact Or.inl
    · rintro (hm | rfl)
      · exact hm
      · exact h
  · rw [if_neg h]
    simp

lemma nodupKeys_mapSet (m : Mem0) (k : String) (v : Product0) (h : NodupKeys m) :
    NodupKeys (mapSet m k v) := by
  unfold NodupKeys at h ⊢
  rw [mapKeys_mapSet]
  by_cases hk : k ∈ mapKeys m
  · rwa [if_pos hk]
  · rw [if_neg hk]
    simp [List.nodup_append, h, hk]

/-- In the key-present branch, `find?` for that key returns the new pair. -/
lemma find?_map_replace (m : Mem0) (k : String) (v : Product0)
    (h : m.any (fun e => e.1 = k) = true) :
    (m.map (fun e => if e.1 = k then (k, v) else e)).find? (fun e => e.1 = k)
      = some (k, v) := by
  induction m with
  | nil => simp at h
  | cons a m ih =>
    by_cases ha : a.1 = k
    · simp [ha]
    · have h' : m.any (fun e => e.1 = k) = true := by
        simpa [ha] using h
      simpa [ha] using ih h'

/-- `Map.get` after `Map.set`. -/
lemma mapLookup_mapSet (m : Mem0) (k : String) (v : Product0) (k' : String) :
    mapLookup (mapSet m k v) k' = if k' = k then some v else mapLookup m k' := by
  unfold mapSet mapLookup
  by_cases hk : m.any (fun e => e.1 = k) = true
  · rw [if_pos hk]
    by_cases hk' : k' = k
    · subst hk'
      rw [if_pos rfl, find?_map_replace m k' v hk]
      rfl
    · rw [if_neg hk', List.find?_map]
      have hpred : ((fun e : String × Product0 => decide (e.1 = k')) ∘
          (fun e => if e.1 = k then (k, v) else e)) = fun e => decide (e.1 = k') := by
        funext e
        by_cases he : e.1 = k <;> simp [he, Ne.symm hk']
      rw [hpred]
      cases h2 : m.find? (fun e => decide (e.1 = k')) with
      | none => rfl
      | some e =>
        have he : e.1 = k' := by simpa using List.find?_some h2
        have hne : ¬ e.1 = k := by rw [he]; exact hk'
        simp [hne]
  · rw [if_neg hk]
    have hnone : m.find? (fun e => decide (e.1 = k)) = none := by
      rw [List.find?_eq_none]
      intro e he
      simp only [decide_eq_true_eq]
      intro hek
      exact hk (List.any_eq_true.mpr ⟨e, he, by simpa using hek⟩)
    rw [List.find?_append]
    by_cases hk' : k' = k
    · subst hk'
      rw [if_pos rfl, hnone]
      simp
    · rw [if_neg hk']
      cases h2 : m.find? (fun e => decide (e.1 = k')) with
      | none => simp [h2, hk', Ne.symm hk']
      | some e => simp [h2]

/-- The last valid value written for key `k` by a batch, if any
(last write wins). -/
def lastSet (ps : List Product0) (k : String) : Option Product0 :=
  ps.foldl (fun acc p => if p.product_id = k then some p else acc) none

lemma foldl_lastSet_acc (ps : List Product0) (k : String) (acc : Option Product0) :
    ps.foldl (fun a p => if p.product_id = k then some p else a) acc =
      match lastSet ps k with
      | some p => some p
      | none => acc := by
  induction ps generalizing acc with
  | nil => simp [lastSet]
  | cons p ps ih =>
    show ps.foldl _ (if p.product_id = k then some p else acc) = _
    rw [ih]
    have hcons : lastSet (p :: ps) k =
        match lastSet ps k with
        | some q => some q
        | none => if p.product_id = k then some p else none := by
      show ps.foldl _ (if p.product_id = k then some p else none) = _
      rw [ih]
    rw [hcons]
    cases lastSet ps k with
    | none => by_cases hp : p.product_id = k <;> simp [hp]
    | some q => rfl

lemma lastSet_cons (p : Product0) (ps : List Product0) (k : String) :
    lastSet (p :: ps) k =
      match lastSet ps k with
      | some q => some q
      | none => if p.product_id = k then some p else none := by
  show ps.foldl _ (if p.product_id = k then some p else none) = _
  rw [foldl_lastSet_acc]

/-- Lookup after a batched sequence of `createProduct` calls: the last row
written for the key wins, keys never written keep their old value. -/
lemma mapLookup_importFold (ps : List Product0) (m : Mem0) (k : String) :
    mapLookup (ps.foldl mem0CreateProduct m) k =
      match lastSet ps k with
      | some p => some p
      | none => mapLookup m k := by
  induction ps generalizing m with
  | nil => simp [lastSet]
  | cons p ps ih =>
    show mapLookup (ps.foldl mem0CreateProduct (mem0CreateProduct m p)) k = _
    rw [ih, lastSet_cons]
    cases lastSet ps k with
    | some q => rfl
    | none =>
      show mapLookup (mem0CreateProduct m p) k = _
      unfold mem0CreateProduct
      rw [mapLookup_mapSet]
      by_cases hp : p.product_id = k
      · simp [hp]
      · simp [hp, Ne.symm hp]

lemma mem_mapKeys_importFold (ps : List Product0) (m : Mem0) (k : String) :
    k ∈ mapKeys (ps.foldl mem0CreateProduct m) ↔
      k ∈ mapKeys m ∨ k ∈ ps.map (·.product_id) := by
  induction ps generalizing m with
  | nil => simp
  | cons p ps ih =>
    show k ∈ mapKeys (ps.foldl mem0CreateProduct (mem0CreateProduct m p)) ↔ _
    rw [ih]
    unfold mem0CreateProduct
    rw [mem_mapKeys_mapSet]
    simp
    tauto

lemma nodupKeys_importFold (ps : List Product0) (m : Mem0) (h : NodupKeys m) :
    NodupKeys (ps.foldl mem0CreateProduct m) := by
  induction ps generalizing m with
  | nil => exact h
  | cons p ps ih =>
    exact ih _ (nodupKeys_mapSet _ _ _ h)

/-- Result of replaying a batch over a store that already holds every key of
the batch: each held entry is overwritten with the batch's last value for
its key, positions unchanged. -/
def overlay (ps : List Product0) (m : Mem0) : Mem0 :=
  m.map (fun e =>
    match lastSet ps e.1 with
    | some p => (e.1, p)
    | none => e)

lemma importFold_eq_overlay (ps : List Product0) (m : Mem0)
    (h : ∀ p ∈ ps, p.product_id ∈ mapKeys m) :
    ps.foldl mem0CreateProduct m = overlay ps m := by
  induction ps generalizing m with
  | nil =>
    show m = overlay [] m
    simp [overlay, lastSet]
  | cons p ps ih =>
    show ps.foldl mem0CreateProduct (mem0CreateProduct m p) = _
    have hp : p.product_id ∈ mapKeys m := h p (List.mem_cons_self _ _)
    have hkeys : mapKeys (mem0CreateProduct m p) = mapKeys m := by
      unfold mem0CreateProduct
      rw [mapKeys_mapSet, if_pos hp]
    rw [ih (mem0CreateProduct m p) (fun q hq => by
      rw [hkeys]; exact h q (List.mem_cons_of_mem _ hq))]
    unfold mem0CreateProduct mapSet
    rw [if_pos ((any_key_iff m p.product_id).mpr hp)]
    unfold overlay
    rw [List.map_map]
    apply List.map_congr_left
    intro e _
    by_cases he : e.1 = p.product_id
    · simp only [Function.comp, if_pos he]
      rw [lastSet_cons, he]
      cases hl : lastSet ps p.product_id with
      | some q => simp [hl]
      | none => simp [hl]
    · simp only [Function.comp, if_neg he]
      rw [lastSet_cons]
      cases hl : lastSet ps e.1 with
      | some q => simp [hl]
      | none => simp [hl, Ne.symm he]

/-- In a map with distinct keys, every held entry is what lookup returns. -/
lemma mapLookup_of_mem (m : Mem0) (e : String × Product0)
    (h : NodupKeys m) (he : e ∈ m) : mapLookup m e.1 = some e.2 := by
  induction m with
  | nil => cases he
  | cons a m ih =>
    rcases List.mem_cons.mp he with rfl | hm
    · simp [mapLookup]
    · have ha : ¬ a.1 = e.1 := by
        intro hc
        have : e.1 ∈ mapKeys m := List.mem_map.mpr ⟨e, hm, rfl⟩
        have := (List.nodup_cons.mp h).1
        rw [hc] at this
        exact this ‹e.1 ∈ mapKeys m›
      have h' : NodupKeys m := (List.nodup_cons.mp h).2
      simpa [mapLookup, ha] using ih h' hm

/-- Replaying an already-applied batch is a no-op. -/
lemma importFold_idem (ps : List Product0) (m : Mem0) (h : NodupKeys m) :
    ps.foldl mem0CreateProduct (ps.foldl mem0CreateProduct m) =
      ps.foldl mem0CreateProduct m := by
  have hkeys : ∀ p ∈ ps, p.product_id ∈ mapKeys (ps.foldl mem0CreateProduct m) := by
    intro p hp
    exact (mem_mapKeys_importFold ps m _).mpr (Or.inr (List.mem_map.mpr ⟨p, hp, rfl⟩))
  rw [importFold_eq_overlay ps _ hkeys]
  have hnod : NodupKeys (ps.foldl mem0CreateProduct m) := nodupKeys_importFold ps m h
  unfold overlay
  conv_rhs => rw [← List.map_id (ps.foldl mem0CreateProduct m)]
  apply List.map_congr_left
  intro e he
  cases hl : lastSet ps e.1 with
  | none => rfl
  | some q =>
    have h1 : mapLookup (ps.foldl mem0CreateProduct m) e.1 = some q := by
      rw [mapLookup_importFold, hl]
    have h2 : mapLookup (ps.foldl mem0CreateProduct m) e.1 = some e.2 :=
      mapLookup_of_mem _ e hnod he
    have h3 : q = e.2 := by
      rw [h1] at h2
      exact Option.some.inj h2
    rw [h3]
    simp

/-- A validated row carries the row's own identifier. -/
lemma parseRow_product_id {r : CsvRow} {p : Product0} (h : parseRow r = some p) :
    r.product_id = some p.product_id := by
  unfold parseRow at h
  split at h
  next pid title category reviews demand heq1 heq2 heq3 heq4 heq5 =>
    split at h
    · cases Option.some.inj h
      exact heq1
    · cases h
  next =>
    cases h

lemma lastSet_eq_none (ps : List Product0) (k : String)
    (h : ∀ p ∈ ps, p.product_id ≠ k) : lastSet ps k = none := by
  induction ps with
  | nil => rfl
  | cons p ps ih =>
    rw [lastSet_cons, ih (fun q hq => h q (List.mem_cons_of_mem _ hq))]
    simp [h p (List.mem_cons_self _ _)]

lemma lastSet_mem_nodup (ps : List Product0) (p : Product0)
    (hmem : p ∈ ps) (hnd : (ps.map (·.product_id)).Nodup) :
    lastSet ps p.product_id = some p := by
  induction ps with
  | nil => cases hmem
  | cons q ps ih =>
    rw [lastSet_cons]
    have h1 : (∀ x ∈ ps, ¬ x.product_id = q.product_id) ∧
        ((ps.map (·.product_id)).Nodup) := by
      simpa using hnd
    rcases List.mem_cons.mp hmem with rfl | hm
    · rw [lastSet_eq_none ps _ h1.1]
      simp
    · rw [ih hm h1.2]

lemma length_filterMap_all_some {α β : Type} (f : α → Option β) (l : List α)
    (h : ∀ a ∈ l, (f a).isSome) : (l.filterMap f).length = l.length := by
  induction l with
  | nil => rfl
  | cons a l ih =>
    rw [List.filterMap_cons]
    cases hfa : f a with
    | none =>
      have := h a (List.mem_cons_self _ _)
      rw [hfa] at this
      cases this
    | some b =>
      simp [ih (fun x hx => h x (List.mem_cons_of_mem _ hx))]

/-! ## Sample data used by the concrete witnesses -/

/-- A well-formed CSV data row (spec §8's `A1` example). -/
def rowA1 : CsvRow :=
  { product_id := some "A1", date := some "2024-01-05", title := some "Widget"
    category := some "Tools", price := some "100", rating := some "4.0"
    reviews := some "12", availability := some "true"
    competitor_price := some "95.5", promotion_flag := some "false"
    estimated_demand := some "500", cost_price := some "60"
    profit_margin := some "20", event := some "NULL", event_impact := some ""
    ad_spend := some "10", market_share := some "0.1" }

/-- A second well-formed row with a distinct identifier. -/
def rowA2 : CsvRow :=
  { product_id := some "A2", date := some "2024-01-06", title := some "Gadget"
    category := some "Tools", price := some "50", rating := some "3.5"
    reviews := some "7", availability := some "true"
    competitor_price := some "", promotion_flag := some "true"
    estimated_demand := some "200", cost_price := some ""
    profit_margin := some "40", event := some "Sale", event_impact := some "1.5"
    ad_spend := some "", market_share := some "" }

/-- A malformed row: the identifier column is missing, so the validator
rejects it. -/
def rowBad : CsvRow :=
  { product_id := none, date := some "2024-01-07", title := some "Broken"
    category := some "Tools", price := some "10", rating := some "1.0"
    reviews := some "1", availability := some "false"
    competitor_price := none, promotion_flag := none
    estimated_demand := some "5", cost_price := none
    profit_margin := some "5", event := none, event_impact := none
    ad_spend := none, market_share := none }

/-- A product already held by the store before ingestion. -/
def productB7 : Product0 :=
  { product_id := "B7", date := "2023-12-01", title := "Older thing"
    category := "Misc", price := "9.99", rating := "2.0", reviews := 3
    availability := true, competitor_price := none, promotion_flag := false
    estimated_demand := 42, cost_price := some "5", profit_margin := "12"
    event := none, event_impact := none, ad_spend := none, market_share := none }

/-- A one-product store state. -/
def storeB : Mem0 := [("B7", productB7)]

/-! ## C1 — ingestion is idempotent -/

/-- **C1**: re-running `importProductsFromCsv` on the same row stream leaves
the `MemStorage` products map and `count()` exactly as after one run, and a
`createProduct` for an identifier already in the map updates that entry in
place rather than adding a second product. -/
theorem importCsv_idempotent (m : Mem0) (rows : List CsvRow) (p : Product0)
    (hm : NodupKeys m) (hp : p.product_id ∈ mapKeys m) :
    (mem0ImportCsv (mem0ImportCsv m rows).1 rows).1 = (mem0ImportCsv m rows).1 ∧
    mem0ProductCount (mem0ImportCsv (mem0ImportCsv m rows).1 rows).1 =
      mem0ProductCount (mem0ImportCsv m rows).1 ∧
    mem0ProductCount (mem0CreateProduct m p) = mem0ProductCount m ∧
    mapLookup (mem0CreateProduct m p) p.product_id = some p := by
  have hstate : (mem0ImportCsv (mem0ImportCsv m rows).1 rows).1 = (mem0ImportCsv m rows).1 := by
    show (rows.filterMap parseRow).foldl mem0CreateProduct
        ((rows.filterMap parseRow).foldl mem0CreateProduct m) =
      (rows.filterMap parseRow).foldl mem0CreateProduct m
    exact importFold_idem _ m hm
  refine ⟨hstate, by rw [hstate], ?_, ?_⟩
  · show (mapSet m p.product_id p).length = m.length
    unfold mapSet
    rw [if_pos ((any_key_iff m p.product_id).mpr hp)]
    exact List.length_map _ _
  · unfold mem0CreateProduct
    rw [mapLookup_mapSet]
    simp

/-- Witness for C1 at a concrete store and stream. -/
theorem importCsv_idempotent_witness :
    NodupKeys storeB ∧ productB7.product_id ∈ mapKeys storeB ∧
    ((mem0ImportCsv (mem0ImportCsv storeB [rowA1, rowA2]).1 [rowA1, rowA2]).1 =
        (mem0ImportCsv storeB [rowA1, rowA2]).1 ∧
      mem0ProductCount (mem0ImportCsv (mem0ImportCsv storeB [rowA1, rowA2]).1 [rowA1, rowA2]).1 =
        mem0ProductCount (mem0ImportCsv storeB [rowA1, rowA2]).1 ∧
      mem0ProductCount (mem0CreateProduct storeB productB7) = mem0ProductCount storeB ∧
      mapLookup (mem0CreateProduct storeB productB7) productB7.product_id = some productB7) :=
  ⟨by decide, by decide,
    importCsv_idempotent storeB [rowA1, rowA2] productB7 (by decide) (by decide)⟩

/-! ## C5 — the resolved count is the number of validated rows -/

/-- **C5**: `importProductsFromCsv` resolves with exactly the number of rows
that passed validation, and that number does not depend on the prior store
state (hence not on how many rows inserted versus updated). -/
theorem importCsv_resolved_count (m m' : Mem0) (rows : List CsvRow) :
    (mem0ImportCsv m rows).2 = (rows.filterMap parseRow).length ∧
    (mem0ImportCsv m rows).2 = (mem0ImportCsv m' rows).2 :=
  ⟨rfl, rfl⟩

/-! ## C6 — a malformed row is skipped, the rest of the batch lands -/

/-- **C6**: a stream of valid rows around one row that fails validation
ingests exactly as the stream without the bad row: the store result is
identical, the promise resolves with the number of valid rows, and every
valid row's product is retrievable afterwards (rows carrying distinct
identifiers). -/
theorem importCsv_bad_row_tolerated (m : Mem0) (A B : List CsvRow) (bad : CsvRow)
    (hbad : parseRow bad = none)
    (hgood : ∀ r ∈ A ++ B, (parseRow r).isSome)
    (hids : (((A ++ B).filterMap parseRow).map (·.product_id)).Nodup) :
    mem0ImportCsv m (A ++ bad :: B) = mem0ImportCsv m (A ++ B) ∧
    (mem0ImportCsv m (A ++ bad :: B)).2 = (A ++ B).length ∧
    (∀ r ∈ A ++ B, ∀ p, parseRow r = some p →
      mapLookup (mem0ImportCsv m (A ++ B)).1 p.product_id = some p) := by
  have hfm : (A ++ bad :: B).filterMap parseRow = (A ++ B).filterMap parseRow := by
    simp [List.filterMap_append, List.filterMap_cons, hbad]
  have hstate : mem0ImportCsv m (A ++ bad :: B) = mem0ImportCsv m (A ++ B) := by
    unfold mem0ImportCsv
    rw [hfm]
  refine ⟨hstate, ?_, ?_⟩
  · rw [hstate]
    show ((A ++ B).filterMap parseRow).length = (A ++ B).length
    exact length_filterMap_all_some _ _ hgood
  · intro r hr p hp
    have hmem : p ∈ (A ++ B).filterMap parseRow := List.mem_filterMap.mpr ⟨r, hr, hp⟩
    show mapLookup (((A ++ B).filterMap parseRow).foldl mem0CreateProduct m) p.product_id = some p
    rw [mapLookup_importFold, lastSet_mem_nodup _ p hmem hids]

/-- Witness for C6: two valid rows around the malformed one. -/
theorem importCsv_bad_row_tolerated_witness :
    parseRow rowBad = none ∧
    (∀ r ∈ [rowA1] ++ [rowA2], (parseRow r).isSome) ∧
    ((([rowA1] ++ [rowA2]).filterMap parseRow).map (·.product_id)).Nodup ∧
    (mem0ImportCsv storeB ([rowA1] ++ rowBad :: [rowA2]) =
        mem0ImportCsv storeB ([rowA1] ++ [rowA2]) ∧
      (mem0ImportCsv storeB ([rowA1] ++ rowBad :: [rowA2])).2 = ([rowA1] ++ [rowA2]).length ∧
      (∀ r ∈ [rowA1] ++ [rowA2], ∀ p, parseRow r = some p →
        mapLookup (mem0ImportCsv storeB ([rowA1] ++ [rowA2])).1 p.product_id = some p)) :=
  ⟨by decide, by decide, by decide,
    importCsv_bad_row_tolerated storeB [rowA1] [rowA2] rowBad
      (by decide) (by decide) (by decide)⟩

/-! ## C9 — ingestion never deletes or alters unrelated products -/

/-- **C9**: a product whose identifier occurs in no row of the stream is
looked up unchanged after `importProductsFromCsv` (same record, all fields
equal), and it is still present — ingestion is upsert, never delete. -/
theorem importCsv_frame (m : Mem0) (rows : List CsvRow) (k : String)
    (hk : ∀ r ∈ rows, r.product_id ≠ some k) :
    mapLookup (mem0ImportCsv m rows).1 k = mapLookup m k ∧
    (k ∈ mapKeys m → k ∈ mapKeys (mem0ImportCsv m rows).1) := by
  have hps : ∀ p ∈ rows.filterMap parseRow, p.product_id ≠ k := by
    intro p hp hc
    rcases List.mem_filterMap.mp hp with ⟨r, hr, hparse⟩
    exact hk r hr (by rw [parseRow_product_id hparse, hc])
  constructor
  · show mapLookup ((rows.filterMap parseRow).foldl mem0CreateProduct m) k = mapLookup m k
    rw [mapLookup_importFold, lastSet_eq_none _ _ hps]
  · intro hkm
    show k ∈ mapKeys ((rows.filterMap parseRow).foldl mem0CreateProduct m)
    exact (mem_mapKeys_importFold _ _ _).mpr (Or.inl hkm)

/-- Witness for C9: the pre-existing product `B7` survives an ingest of the
`A1`/`A2` stream untouched. -/
theorem importCsv_frame_witness :
    (∀ r ∈ [rowA1, rowA2], r.product_id ≠ some "B7") ∧
    (mapLookup (mem0ImportCsv storeB [rowA1, rowA2]).1 "B7" = mapLookup storeB "B7" ∧
      ("B7" ∈ mapKeys storeB → "B7" ∈ mapKeys (mem0ImportCsv storeB [rowA1, rowA2]).1)) :=
  ⟨by decide, importCsv_frame storeB [rowA1, rowA2] "B7" (by decide)⟩

/-! ## C2 — filter correctness of `getProducts` -/

lemma mem_jsSlice {α : Type} {l : List α} {s e : Int} {x : α}
    (h : x ∈ jsSlice l s e) : x ∈ l := by
  unfold jsSlice at h
  exact List.mem_of_mem_take (List.mem_of_mem_drop h)

lemma mem_condFilter {α : Type} {t : Bool} {pred : α → Bool} {l : List α} {x : α}
    (h : x ∈ condFilter t pred l) : x ∈ l ∧ (t = true → pred x = true) := by
  unfold condFilter at h
  cases t with
  | false => exact ⟨h, by simp⟩
  | true => exact ⟨(List.mem_filter.mp h).1, fun _ => (List.mem_filter.mp h).2⟩

/-- A part_000 product whose rating fails the 3-star bar. -/
def productLow : Product0 :=
  { product_id := "L1", date := "2024-02-02", title := "Low star", category := "Misc"
    price := "15", rating := "1.0", reviews := 2, availability := true
    competitor_price := none, promotion_flag := false, estimated_demand := 9
    cost_price := none, profit_margin := "8", event := none, event_impact := none
    ad_spend := none, market_share := none }

/-- part_001 sample products for the witnesses and counterexamples. -/
def prodX : Product1 :=
  { id := "u1", name := "Smart Watch", category := "Electronics", brand := "Acme"
    description := none, price := "100", competitorPrices := [("amazon", 99)]
    rating := "4.5", reviewCount := 10, salesVolume := 300, profitMargin := "25"
    stockLevel := 50, locationData := [("mumbai", 150)], launchDate := 0
    trending := true, createdAt := 0 }

def prodY : Product1 :=
  { id := "u2", name := "Mug", category := "Home", brand := "Zen"
    description := some "ceramic", price := "20", competitorPrices := []
    rating := "3.0", reviewCount := 4, salesVolume := 120, profitMargin := "40"
    stockLevel := 10, locationData := [("delhi", 80)], launchDate := 0
    trending := false, createdAt := 0 }

/-- A part_001 product with a negative price. -/
def prodNeg : Product1 :=
  { id := "u3", name := "Oddity", category := "Home", brand := "Zen"
    description := none, price := "-5", competitorPrices := []
    rating := "1.0", reviewCount := 1, salesVolume := 1, profitMargin := "10"
    stockLevel := 1, locationData := [], launchDate := 0
    trending := false, createdAt := 0 }

def analyticsA : Analytics1 :=
  { id := "a1", productId := some "u1", date := 0, sales := 5, revenue := "500"
    views := 100, conversions := 10, location := "mumbai" }

def store1 : Mem1State := ⟨[prodX, prodY], [analyticsA]⟩

/-- **C2, counterexample**: (a) the part_000 `getProducts` ignores a supplied
`minRating`, returning a product whose parsed rating is below the bound;
(b) a zero `minPrice` is falsy, so the filter is skipped and a product with
negative price is returned, violating `P.price ≥ m` at `m = 0`. -/
theorem getProducts_filters_cex :
    (∃ p ∈ mem0GetProducts [("L1", productLow)] 50 0 { minRating := some 3 },
      floatGe (jsParseFloat p.rating) 3 = false) ∧
    (∃ p ∈ mem1GetProducts ⟨[prodNeg], []⟩ 50 0 { minPrice := some 0 },
      floatGe (jsParseFloat p.price) 0 = false) := by
  decide

/-- **C2, amended**: every product returned by `getProducts` satisfies each
*truthy* supplied predicate (non-empty `category`, non-zero numeric bounds):
exact category match and inclusive parsed-price bounds in both revisions,
and additionally the parsed-rating lower bound and the location-key test in
the part_001 revision; the part_000 revision does not apply `minRating` (or
`location`) at all. -/
theorem getProducts_filters_hold (m : Mem0) (s : Mem1State) (f : Filters)
    (limit offset : Int) :
    (∀ p ∈ mem0GetProducts m limit offset f,
      (∀ c, f.category = some c → c.isEmpty = false → p.category = c) ∧
      (∀ b, f.minPrice = some b → b ≠ 0 → floatGe (jsParseFloat p.price) b = true) ∧
      (∀ b, f.maxPrice = some b → b ≠ 0 → floatLe (jsParseFloat p.price) b = true)) ∧
    (∀ p ∈ mem1GetProducts s limit offset f,
      (∀ c, f.category = some c → c.isEmpty = false → p.category = c) ∧
      (∀ b, f.minPrice = some b → b ≠ 0 → floatGe (jsParseFloat p.price) b = true) ∧
      (∀ b, f.maxPrice = some b → b ≠ 0 → floatLe (jsParseFloat p.price) b = true) ∧
      (∀ b, f.minRating = some b → b ≠ 0 → floatGe (jsParseFloat p.rating) b = true) ∧
      (∀ l, f.location = some l → l.isEmpty = false →
        (p.locationData.map Prod.fst).contains (jsToLower l) = true)) := by
  constructor
  · intro p hp
    simp only [mem0GetProducts] at hp
    obtain ⟨h2, hmax⟩ := mem_condFilter (mem_jsSlice hp)
    obtain ⟨h1, hmin⟩ := mem_condFilter h2
    obtain ⟨h0, hcat⟩ := mem_condFilter h1
    refine ⟨?_, ?_, ?_⟩
    · intro c hc hne
      have ht : truthyS f.category = true := by rw [hc]; simp [truthyS, hne]
      have := hcat ht
      rw [hc] at this
      simpa using this
    · intro b hb hbne
      have ht : truthyN f.minPrice = true := by rw [hb]; simp [truthyN, hbne]
      have := hmin ht
      rw [hb] at this
      simpa using this
    · intro b hb hbne
      have ht : truthyN f.maxPrice = true := by rw [hb]; simp [truthyN, hbne]
      have := hmax ht
      rw [hb] at this
      simpa using this
  · intro p hp
    simp only [mem1GetProducts] at hp
    obtain ⟨h4, hloc⟩ := mem_condFilter (mem_jsSlice hp)
    obtain ⟨h3, hrat⟩ := mem_condFilter h4
    obtain ⟨h2, hmax⟩ := mem_condFilter h3
    obtain ⟨h1, hmin⟩ := mem_condFilter h2
    obtain ⟨h0, hcat⟩ := mem_condFilter h1
    refine ⟨?_, ?_, ?_, ?_, ?_⟩
    · intro c hc hne
      have ht : truthyS f.category = true := by rw [hc]; simp [truthyS, hne]
      have := hcat ht
      rw [hc] at this
      simpa using this
    · intro b hb hbne
      have ht : truthyN f.minPrice = true := by rw [hb]; simp [truthyN, hbne]
      have := hmin ht
      rw [hb] at this
      simpa using this
    · intro b hb hbne
      have ht : truthyN f.maxPrice = true := by rw [hb]; simp [truthyN, hbne]
      have := hmax ht
      rw [hb] at this
      simpa using this
    · intro b hb hbne
      have ht : truthyN f.minRating = true := by rw [hb]; simp [truthyN, hbne]
      have := hrat ht
      rw [hb] at this
      simpa using this
    · intro l hl hne
      have ht : truthyS f.location = true := by rw [hl]; simp [truthyS, hne]
      have := hloc ht
      rw [hl] at this
      simpa using this

/-- Witness for the amended C2 on concrete stores and truthy filters. -/
theorem getProducts_filters_hold_witness :
    productB7 ∈ mem0GetProducts storeB 50 0 { category := some "Misc" } ∧
    productB7.category = "Misc" ∧
    prodX ∈ mem1GetProducts store1 50 0 { minRating := some 3 } ∧
    floatGe (jsParseFloat prodX.rating) 3 = true :=
  ⟨by decide,
    ((getProducts_filters_hold storeB store1 { category := some "Misc" } 50 0).1
      productB7 (by decide)).1 "Misc" rfl (by decide),
    by decide,
    (((getProducts_filters_hold storeB store1 { minRating := some 3 } 50 0).2
      prodX (by decide)).2.2.2.1 3 rfl (by decide))⟩

/-! ## C4 — free-text search -/

/-- A part_000 product titled `"Widget"`, for the search counterexample. -/
def productW : Product0 :=
  { product_id := "W1", date := "2024-03-03", title := "Widget", category := "Tools"
    price := "100", rating := "4.0", reviews := 12, availability := true
    competitor_price := none, promotion_flag := false, estimated_demand := 500
    cost_price := none, profit_margin := "20", event := none, event_impact := none
    ad_spend := none, market_share := none }

/-- **C4, counterexample**: the part_000 in-memory search lower-cases only
the title, not the query, so the upper-cased query `"WIDGET"` misses the
product titled `"Widget"` while `"widget"` finds it — the result is not
invariant under changing the query's letter case, and a product whose title
contains the query case-insensitively is not returned. -/
theorem search_case_sensitivity_cex :
    mem0SearchProducts [("W1", productW)] "WIDGET" = [] ∧
    mem0SearchProducts [("W1", productW)] "widget" = [productW] := by
  decide

/-- **C4, amended**: the part_000 in-memory search returns exactly the
products whose lower-cased title contains the query verbatim (so it is
case-insensitive in the title only); the part_001 search is fully
case-insensitive — queries equal up to letter case give equal results — and
returns exactly the products whose lower-cased `name`, `category` or `brand`
contains the lower-cased query. -/
theorem search_characterization (m : Mem0) (s : Mem1State) (q q1 q2 : String)
    (hq : jsToLower q1 = jsToLower q2) :
    (∀ p, p ∈ mem0SearchProducts m q ↔
      p ∈ m.map Prod.snd ∧ jsIncludes (jsToLower p.title) q = true) ∧
    mem1SearchProducts s q1 = mem1SearchProducts s q2 ∧
    (∀ p, p ∈ mem1SearchProducts s q ↔
      p ∈ s.products ∧
        (jsIncludes (jsToLower p.name) (jsToLower q) ||
         jsIncludes (jsToLower p.category) (jsToLower q) ||
         jsIncludes (jsToLower p.brand) (jsToLower q)) = true) := by
  refine ⟨?_, ?_, ?_⟩
  · intro p
    simp only [mem0SearchProducts, List.mem_filter]
  · simp only [mem1SearchProducts, hq]
  · intro p
    simp only [mem1SearchProducts, List.mem_filter]

/-- Witness for the amended C4: two spellings of the same query give the
same part_001 result, and the part_000 search finds `"Widget"` by a
lower-case query. -/
theorem search_characterization_witness :
    jsToLower "WiDgEt" = jsToLower "widGET" ∧
    mem1SearchProducts store1 "WiDgEt" = mem1SearchProducts store1 "widGET" ∧
    (productW ∈ mem0SearchProducts [("W1", productW)] "widget" ↔
      productW ∈ [("W1", productW)].map Prod.snd ∧
        jsIncludes (jsToLower productW.title) "widget" = true) :=
  ⟨by decide,
    (search_characterization [("W1", productW)] store1 "widget" "WiDgEt" "widGET"
      (by decide)).2.1,
    (search_characterization [("W1", productW)] store1 "widget" "WiDgEt" "widGET"
      (by decide)).1 productW⟩

/-! ## C3 — determinism of the aggregation views -/

/-- **C3, counterexample**: two calls of the part_001 `getTrendingProducts`
on an unchanged one-product store, with the `Math.random` stream at two
states a real run can produce (constantly `0` versus constantly `1/2`),
return different sequences: the mocked `salesGrowth` field differs. -/
theorem aggregation_determinism_cex :
    mem1GetTrendingProducts ⟨[prodX], []⟩ 10 (fun _ => 0) ≠
      mem1GetTrendingProducts ⟨[prodX], []⟩ 10 (fun _ => mkRat 1 2) := by
  intro h
  have h2 := congrArg (fun l => (l.headD ⟨prodX, 0, 0, ""⟩).salesGrowth) h
  simp only [mem1GetTrendingProducts, attachGrowth, jsSortBy, insertBy, List.foldl,
    List.filter, List.take, List.headD, prodX, decide_True, Rat.mkRat_eq_div] at h2
  norm_num at h2

lemma attachGrowth_map_product (rand : ℕ → ℚ) (f g : ℚ → ℚ) (pos : String) :
    ∀ (i : ℕ) (l : List Product1),
      (attachGrowth rand f g pos i l).map (·.product) = l := by
  intro i l
  induction l generalizing i with
  | nil => rfl
  | cons p ps ih => simp [attachGrowth, ih]

lemma attachGrowth_map_position (rand : ℕ → ℚ) (f g : ℚ → ℚ) (pos : String) :
    ∀ (i : ℕ) (l : List Product1),
      (attachGrowth rand f g pos i l).map (·.competitivePosition) =
        l.map (fun _ => pos) := by
  intro i l
  induction l generalizing i with
  | nil => rfl
  | cons p ps ih => simp [attachGrowth, ih]

lemma catPerfAux_strip (rand : ℕ → ℚ) (prods : List Product1) :
    ∀ (i : ℕ) (cs : List String),
      (catPerfAux rand prods i cs).map
          (fun e => (e.category, e.sales, e.revenue, e.profitMargin)) =
        cs.map (fun c => (c, (catEntry prods c 0).sales,
          (catEntry prods c 0).revenue, (catEntry prods c 0).profitMargin)) := by
  intro i cs
  induction cs generalizing i with
  | nil => rfl
  | cons c cs ih => simp [catPerfAux, ih, catEntry]

/-- **C3, amended**: the part_001 aggregation views are deterministic in
their ordering and in every product-derived field — across any two
`Math.random` streams the returned sequences carry the same products in the
same order, the same `competitivePosition` strings, and the same
`category`/`sales`/`revenue`/`profitMargin` roll-up values; only the mocked
growth fields (`salesGrowth`, `revenueGrowth`, `growth`) depend on the
random draws.  (The views also take the store by value and return fresh
records, so no call mutates the store.) -/
theorem aggregation_views_rand_independent (s : Mem1State) (limit : ℕ)
    (r1 r2 : ℕ → ℚ) :
    ((mem1GetTrendingProducts s limit r1).map (·.product) =
        (mem1GetTrendingProducts s limit r2).map (·.product) ∧
      (mem1GetTrendingProducts s limit r1).map (·.competitivePosition) =
        (mem1GetTrendingProducts s limit r2).map (·.competitivePosition)) ∧
    ((mem1GetTopProfitProducts s limit r1).map (·.product) =
        (mem1GetTopProfitProducts s limit r2).map (·.product) ∧
      (mem1GetTopProfitProducts s limit r1).map (·.competitivePosition) =
        (mem1GetTopProfitProducts s limit r2).map (·.competitivePosition)) ∧
    ((mem1GetUnderperformingProducts s limit r1).map (·.product) =
        (mem1GetUnderperformingProducts s limit r2).map (·.product) ∧
      (mem1GetUnderperformingProducts s limit r1).map (·.competitivePosition) =
        (mem1GetUnderperformingProducts s limit r2).map (·.competitivePosition)) ∧
    (mem1GetCategoryPerformance s r1).map
        (fun e => (e.category, e.sales, e.revenue, e.profitMargin)) =
      (mem1GetCategoryPerformance s r2).map
        (fun e => (e.category, e.sales, e.revenue, e.profitMargin)) := by
  refine ⟨⟨?_, ?_⟩, ⟨?_, ?_⟩, ⟨?_, ?_⟩, ?_⟩ <;>
    simp only [mem1GetTrendingProducts, mem1GetTopProfitProducts,
      mem1GetUnderperformingProducts, mem1GetCategoryPerformance,
      attachGrowth_map_product, attachGrowth_map_position, catPerfAux_strip]

/-! ## C7 — category roll-up sums the volume field -/

lemma mem_dedup_foldl (l : List String) :
    ∀ (acc : List String) (x : String),
      (x ∈ l.foldl (fun acc y => if y ∈ acc then acc else acc ++ [y]) acc) ↔
        x ∈ acc ∨ x ∈ l := by
  induction l with
  | nil => simp
  | cons a l ih =>
    intro acc x
    show x ∈ l.foldl _ (if a ∈ acc then acc else acc ++ [a]) ↔ _
    rw [ih]
    by_cases ha : a ∈ acc
    · rw [if_pos ha]
      constructor
      · rintro (h | h)
        · exact Or.inl h
        · exact Or.inr (List.mem_cons_of_mem _ h)
      · rintro (h | h)
        · exact Or.inl h
        · rcases List.mem_cons.mp h with rfl | h
          · exact Or.inl ha
          · exact Or.inr h
    · rw [if_neg ha]
      simp only [List.mem_append, List.mem_singleton, List.mem_cons]
      tauto

lemma mem_jsSetDedup (l : List String) (x : String) : x ∈ jsSetDedup l ↔ x ∈ l := by
  unfold jsSetDedup
  rw [mem_dedup_foldl]
  simp

lemma catPerfAux_mem (rand : ℕ → ℚ) (prods : List Product1) :
    ∀ (cs : List String) (i : ℕ) (c : String), c ∈ cs →
      ∃ e ∈ catPerfAux rand prods i cs, e.category = c ∧
        e.sales = ((prods.filter (fun p => p.category = c)).map (·.salesVolume)).sum := by
  intro cs
  induction cs with
  | nil =>
    intro i c hc
    cases hc
  | cons d cs ih =>
    intro i c hc
    rcases List.mem_cons.mp hc with rfl | h
    · exact ⟨catEntry prods c (rand i), List.mem_cons_self _ _, rfl, rfl⟩
    · rcases ih (i + 1) c h with ⟨e, he, h1, h2⟩
      exact ⟨e, List.mem_cons_of_mem _ he, h1, h2⟩

lemma catPerfAux_sales (rand : ℕ → ℚ) (prods : List Product1) :
    ∀ (cs : List String) (i : ℕ), ∀ e ∈ catPerfAux rand prods i cs,
      e.sales = ((prods.filter (fun p => p.category = e.category)).map (·.salesVolume)).sum := by
  intro cs
  induction cs with
  | nil =>
    intro i e he
    cases he
  | cons d cs ih =>
    intro i e he
    rcases List.mem_cons.mp he with rfl | h
    · rfl
    · exact ih (i + 1) e h

/-- **C7**: for every category `c` present in the store,
`getCategoryPerformance` reports an entry for `c` whose `sales` equals the
sum of `salesVolume` over all products of category `c`; moreover every
reported entry's `sales` is that sum for its own category. -/
theorem categoryPerformance_sales_rollup (s : Mem1State) (rand : ℕ → ℚ) (c : String)
    (hc : c ∈ s.products.map (·.category)) :
    (∃ e ∈ mem1GetCategoryPerformance s rand, e.category = c ∧
      e.sales = ((s.products.filter (fun p => p.category = c)).map (·.salesVolume)).sum) ∧
    (∀ e ∈ mem1GetCategoryPerformance s rand,
      e.sales = ((s.products.filter (fun p => p.category = e.category)).map (·.salesVolume)).sum) := by
  constructor
  · have hmem : c ∈ jsSetDedup (s.products.map (·.category)) := (mem_jsSetDedup _ _).mpr hc
    exact catPerfAux_mem rand s.products _ 0 c hmem
  · exact catPerfAux_sales rand s.products _ 0

/-- Witness for C7 on the two-category sample store. -/
theorem categoryPerformance_sales_rollup_witness :
    "Electronics" ∈ store1.products.map (·.category) ∧
    (∃ e ∈ mem1GetCategoryPerformance store1 (fun _ => 0), e.category = "Electronics" ∧
      e.sales = ((store1.products.filter (fun p => p.category = "Electronics")).map
        (·.salesVolume)).sum) :=
  ⟨by decide,
    (categoryPerformance_sales_rollup store1 (fun _ => 0) "Electronics" (by decide)).1⟩

/-! ## C10 — dashboard means divide without a zero guard -/

lemma foldl_jsAdd_some (l : List (Option ℚ)) (h : ∀ o ∈ l, o.isSome) :
    ∀ a : ℚ, l.foldl jsAdd (some a) = some (a + (l.map (fun o => o.getD 0)).sum) := by
  induction l with
  | nil =>
    intro a
    simp
  | cons o l ih =>
    intro a
    cases o with
    | none =>
      have := h none (List.mem_cons_self _ _)
      cases this
    | some b =>
      have hl : ∀ o ∈ l, o.isSome := fun o ho => h o (List.mem_cons_of_mem _ ho)
      show l.foldl jsAdd (jsAdd (some a) (some b)) = _
      rw [show jsAdd (some a) (some b) = some (a + b) from rfl, ih hl]
      simp [add_assoc]

lemma jsSum_all_some (l : List (Option ℚ)) (h : ∀ o ∈ l, o.isSome) :
    jsSum l = some ((l.map (fun o => o.getD 0)).sum) := by
  unfold jsSum
  rw [foldl_jsAdd_some l h 0]
  simp

/-- **C10**: on the empty store `getDashboardMetrics` divides the zero sums
by the zero count, so `avgProfitMargin` and `avgRating` are `NaN` (`none`),
not `0`; on a non-empty store whose margin/rating strings all parse they are
the arithmetic means of the parsed values, and `totalProducts` is always the
store's product count. -/
theorem dashboardMetrics_means (s : Mem1State) :
    (mem1GetDashboardMetrics s).totalProducts = s.products.length ∧
    (s.products = [] →
      (mem1GetDashboardMetrics s).avgProfitMargin = none ∧
      (mem1GetDashboardMetrics s).avgRating = none) ∧
    (s.products ≠ [] →
      ((∀ p ∈ s.products, (jsParseFloat p.profitMargin).isSome) →
        (mem1GetDashboardMetrics s).avgProfitMargin =
          some ((s.products.map (fun p => (jsParseFloat p.profitMargin).getD 0)).sum /
            s.products.length)) ∧
      ((∀ p ∈ s.products, (jsParseFloat p.rating).isSome) →
        (mem1GetDashboardMetrics s).avgRating =
          some ((s.products.map (fun p => (jsParseFloat p.rating).getD 0)).sum /
            s.products.length))) := by
  refine ⟨rfl, ?_, ?_⟩
  · intro h
    constructor <;> simp [mem1GetDashboardMetrics, h, jsSum, jsDiv]
  · intro hne
    have h0 : s.products.length ≠ 0 := fun h => hne (List.length_eq_zero.mp h)
    have hlen : ((s.products.length : ℚ)) ≠ 0 := Nat.cast_ne_zero.mpr h0
    constructor <;> intro hall
    · show jsDiv (jsSum (s.products.map (fun p => jsParseFloat p.profitMargin))) _ = _
      rw [jsSum_all_some _ (by
        intro o ho
        rcases List.mem_map.mp ho with ⟨p, hp, rfl⟩
        exact hall p hp)]
      simp only [jsDiv]
      rw [if_neg hlen, List.map_map]
      rfl
    · show jsDiv (jsSum (s.products.map (fun p => jsParseFloat p.rating))) _ = _
      rw [jsSum_all_some _ (by
        intro o ho
        rcases List.mem_map.mp ho with ⟨p, hp, rfl⟩
        exact hall p hp)]
      simp only [jsDiv]
      rw [if_neg hlen, List.map_map]
      rfl

/-- Witness for C10: `NaN` means on the empty store, real means on the
sample store. -/
theorem dashboardMetrics_means_witness :
    ((⟨[], []⟩ : Mem1State).products = []) ∧
    store1.products ≠ [] ∧
    (∀ p ∈ store1.products, (jsParseFloat p.profitMargin).isSome) ∧
    ((mem1GetDashboardMetrics ⟨[], []⟩).avgProfitMargin = none ∧
      (mem1GetDashboardMetrics ⟨[], []⟩).avgRating = none) ∧
    (mem1GetDashboardMetrics store1).avgProfitMargin =
      some ((store1.products.map (fun p => (jsParseFloat p.profitMargin).getD 0)).sum /
        store1.products.length) :=
  ⟨rfl, by decide, by decide,
    (dashboardMetrics_means ⟨[], []⟩).2.1 rfl,
    ((dashboardMetrics_means store1).2.2 (by decide)).1 (by decide)⟩

/-! ## C8 — `"NULL"` and empty strings in optional fields -/

/-- A row whose optional columns all carry the literal string `"NULL"`. -/
def rowNull : CsvRow :=
  { product_id := some "N1", date := some "2024-01-08", title := some "Nully"
    category := some "Misc", price := some "10", rating := some "3.0"
    reviews := some "4", availability := some "true"
    competitor_price := some "NULL", promotion_flag := some "false"
    estimated_demand := some "10", cost_price := some "NULL"
    profit_margin := some "5", event := some "NULL", event_impact := some "NULL"
    ad_spend := some "NULL", market_share := some "NULL" }

/-- **C8, counterexample**: the validator keeps the literal `"NULL"` string
verbatim in `competitor_price` (and the other decimal-ish optional fields);
only `event` maps `"NULL"` to a true null. -/
theorem validator_null_cex :
    (parseRow rowNull).map (·.competitor_price) = some (some "NULL") ∧
    (parseRow rowNull).map (·.event_impact) = some (some "NULL") ∧
    (parseRow rowNull).map (·.event) = some none := by
  decide

/-- The validated product's optional fields are exactly the source's
coercions of the raw columns. -/
lemma parseRow_fields {r : CsvRow} {p : Product0} (h : parseRow r = some p) :
    p.competitor_price = optionalCoerce r.competitor_price ∧
    p.cost_price = optionalCoerce r.cost_price ∧
    p.event_impact = optionalCoerce r.event_impact ∧
    p.ad_spend = optionalCoerce r.ad_spend ∧
    p.market_share = optionalCoerce r.market_share ∧
    p.event = eventCoerce r.event := by
  unfold parseRow at h
  split at h
  next pid title category reviews demand heq1 heq2 heq3 heq4 heq5 =>
    split at h
    · cases Option.some.inj h
      exact ⟨rfl, rfl, rfl, rfl, rfl, rfl⟩
    · cases h
  next =>
    cases h

lemma optionalCoerce_falsy {o : Option String} (h : o = none ∨ o = some "") :
    optionalCoerce o = none := by
  rcases h with rfl | rfl <;> rfl

lemma optionalCoerce_nullLiteral : optionalCoerce (some "NULL") = some "NULL" := by
  decide

lemma eventCoerce_falsy {o : Option String}
    (h : o = none ∨ o = some "" ∨ o = some "NULL") : eventCoerce o = none := by
  rcases h with rfl | rfl | rfl
  · rfl
  · rfl
  · simp [eventCoerce]

/-- **C8, amended**: the validation step maps an absent or empty raw value to
a true null in every optional field, and maps the literal string `"NULL"` to
null only in the `event` field; in the other optional fields
(`competitor_price`, `cost_price`, `event_impact`, `ad_spend`,
`market_share`) the literal `"NULL"` is stored verbatim. -/
theorem validator_null_handling (r : CsvRow) (p : Product0)
    (h : parseRow r = some p) :
    ((r.competitor_price = none ∨ r.competitor_price = some "") →
      p.competitor_price = none) ∧
    (r.competitor_price = some "NULL" → p.competitor_price = some "NULL") ∧
    ((r.cost_price = none ∨ r.cost_price = some "") → p.cost_price = none) ∧
    (r.cost_price = some "NULL" → p.cost_price = some "NULL") ∧
    ((r.event_impact = none ∨ r.event_impact = some "") → p.event_impact = none) ∧
    (r.event_impact = some "NULL" → p.event_impact = some "NULL") ∧
    ((r.ad_spend = none ∨ r.ad_spend = some "") → p.ad_spend = none) ∧
    (r.ad_spend = some "NULL" → p.ad_spend = some "NULL") ∧
    ((r.market_share = none ∨ r.market_share = some "") → p.market_share = none) ∧
    (r.market_share = some "NULL" → p.market_share = some "NULL") ∧
    ((r.event = none ∨ r.event = some "" ∨ r.event = some "NULL") → p.event = none) := by
  obtain ⟨h1, h2, h3, h4, h5, h6⟩ := parseRow_fields h
  refine ⟨?_, ?_, ?_, ?_, ?_, ?_, ?_, ?_, ?_, ?_, ?_⟩
  · intro hf; rw [h1]; exact optionalCoerce_falsy hf
  · intro hf; rw [h1, hf]; exact optionalCoerce_nullLiteral
  · intro hf; rw [h2]; exact optionalCoerce_falsy hf
  · intro hf; rw [h2, hf]; exact optionalCoerce_nullLiteral
  · intro hf; rw [h3]; exact optionalCoerce_falsy hf
  · intro hf; rw [h3, hf]; exact optionalCoerce_nullLiteral
  · intro hf; rw [h4]; exact optionalCoerce_falsy hf
  · intro hf; rw [h4, hf]; exact optionalCoerce_nullLiteral
  · intro hf; rw [h5]; exact optionalCoerce_falsy hf
  · intro hf; rw [h5, hf]; exact optionalCoerce_nullLiteral
  · intro hf; rw [h6]; exact eventCoerce_falsy hf

/-- The product the validator derives from `rowNull`. -/
def productNull : Product0 :=
  { product_id := "N1", date := "2024-01-08", title := "Nully", category := "Misc"
    price := "10", rating := "3.0", reviews := 4, availability := true
    competitor_price := some "NULL", promotion_flag := false, estimated_demand := 10
    cost_price := some "NULL", profit_margin := "5", event := none
    event_impact := some "NULL", ad_spend := some "NULL", market_share := some "NULL" }

/-- Witness for the amended C8 at `rowNull` and `rowA1`. -/
theorem validator_null_handling_witness :
    parseRow rowNull = some productNull ∧
    (rowNull.event = none ∨ rowNull.event = some "" ∨ rowNull.event = some "NULL") ∧
    productNull.event = none ∧
    (rowNull.competitor_price = some "NULL" → productNull.competitor_price = some "NULL") :=
  ⟨by decide, by decide,
    (validator_null_handling rowNull productNull (by decide)).2.2.2.2.2.2.2.2.2.2
      (by decide),
    (validator_null_handling rowNull productNull (by decide)).2.1⟩

end TrendSensei
